import Mathlib

/-
  Verification of the SeaStrike/SeaBattle realtime match server (src/index.js,
  first revision).  The JS state (matches, searchQueue, ratings) is shallowly
  embedded: JS objects keyed by player id become association lists, JS Sets
  become duplicate-free lists in insertion order, and each socket handler
  becomes a pure function from the old state to the reply plus the new state.
  Outbound socket emissions are not modelled (the spec treats delivery as an
  external collaborator).
-/

set_option linter.unusedVariables false

namespace SeaBattle

/-- Player identifiers: the server normalizes every id with String(...). -/
abbrev PlayerId := String

/-- match.state ∈ 'waiting' | 'started' | 'finished' | 'aborted'. -/
inductive MState where
  | waiting
  | started
  | finished
  | aborted
deriving DecidableEq, Repr

/-- A ship as submitted by a client.  Fields are optional because the server
stores the payload verbatim without validating its shape (`ship.cells || []`,
`sh.size || 0`). -/
structure Ship where
  cells : Option (List Nat)
  size : Option Nat
  orientation : Option String
  skinId : Option String
deriving DecidableEq, Repr

/-- The sunkShip descriptor built in `shoot`. -/
structure SunkShip where
  cells : List Nat
  size : Option Nat
  orientation : Option String
  skinId : Option String
  owner : PlayerId
deriving DecidableEq, Repr

/-- The per-match state: matches.get(matchId) in the source.  JS Sets become
lists without duplicates (insertion order); objects keyed by playerId become
association lists. `winner` is absent (none) until finishMatch sets it. -/
structure Match where
  id : String
  players : List PlayerId
  placements : List (PlayerId × List Ship)
  shots : List (PlayerId × List Nat)
  hits : List (PlayerId × List Nat)
  sunk : List (PlayerId × List SunkShip)
  turn : Option PlayerId
  state : MState
  rematchVotes : List PlayerId
  winner : Option PlayerId
deriving DecidableEq, Repr

/- ===== association-list and set helpers (JS object / Map / Set semantics) ===== -/

/-- obj[k] lookup. -/
def lookupA {α : Type} : List (PlayerId × α) → PlayerId → Option α
  | [], _ => none
  | e :: rest, k => if e.1 == k then some e.2 else lookupA rest k

/-- obj[k] = v : replace the value if the key is present, append otherwise. -/
def setA {α : Type} : List (PlayerId × α) → PlayerId → α → List (PlayerId × α)
  | [], k, v => [(k, v)]
  | e :: rest, k, v => if e.1 == k then (k, v) :: rest else e :: setA rest k v

/-- Read a Set-valued field, treating a missing key as the empty set
(`match.shots[p]` used after the `|| new Set()` convention). -/
def getSet (l : List (PlayerId × List Nat)) (k : PlayerId) : List Nat :=
  (lookupA l k).getD []

/-- `obj[k] = obj[k] || new Set()`. -/
def ensureSet (l : List (PlayerId × List Nat)) (k : PlayerId) :
    List (PlayerId × List Nat) :=
  if (lookupA l k).isSome then l else l ++ [(k, [])]

/-- Set.add: append only when absent. -/
def addSet (s : List Nat) (i : Nat) : List Nat :=
  if i ∈ s then s else s ++ [i]

/-- Set.add for sets of player ids (rematchVotes). -/
def addVote (s : List PlayerId) (p : PlayerId) : List PlayerId :=
  if p ∈ s then s else s ++ [p]

/- ===== rating engine (lines 42-71) ===== -/

abbrev Ratings := List (PlayerId × Int)

def BASE_RATING : Int := 1000
def RATING_DELTA : Int := 25

/-- getRating: seed an unseen player at BASE_RATING, then read. -/
def getRating (r : Ratings) (playerId : PlayerId) : Ratings × Int :=
  match lookupA r playerId with
  | some v => (r, v)
  | none => (r ++ [(playerId, BASE_RATING)], BASE_RATING)

/-- applyMatchResult: winner +DELTA, loser max(0, old-DELTA); both deltas are
computed from the pre-update (post-seeding) pair before either write. -/
def applyMatchResult (r : Ratings) (winnerId loserId : PlayerId) :
    Ratings × Int × Int :=
  let a := getRating r winnerId
  let b := getRating a.1 loserId
  let wNew := a.2 + RATING_DELTA
  let lNew := max 0 (b.2 - RATING_DELTA)
  (setA (setA b.1 winnerId wNew) loserId lNew, wNew, lNew)

/- ===== helpers (lines 73-90) ===== -/

/-- cellIndex(x, y) = y*10 + x, with no bounds check. -/
def cellIndex (x y : Nat) : Nat := y * 10 + x

/-- match.players.find(p => String(p) !== String(playerId)). -/
def otherPlayer (m : Match) (playerId : PlayerId) : Option PlayerId :=
  m.players.find? (fun p => p != playerId)

/-- String(match.turn): JS stringifies null as the string "null". -/
def turnStr (t : Option PlayerId) : String :=
  match t with
  | some p => p
  | none => "null"

/-- `v || null` on an optional string: the empty string is falsy in JS. -/
def truthyStr (s : Option String) : Option String :=
  match s with
  | some v => if v = "" then none else some v
  | none => none

/- ===== finishMatch (lines 92-134); emissions dropped ===== -/

def finishMatch (m : Match) (r : Ratings) (winnerId : Option PlayerId) :
    Match × Ratings :=
  if m.state = MState.finished ∨ m.state = MState.aborted then (m, r)
  else
    let m1 := { m with state := MState.finished, winner := truthyStr winnerId }
    match truthyStr winnerId with
    | some w =>
      if m1.players.length = 2 then
        let loser :=
          match m1.players.find? (fun p => p != w) with
          | some p => p
          | none => "undefined"
        if loser ≠ "" then (m1, (applyMatchResult r w loser).1) else (m1, r)
      else (m1, r)
    | none => (m1, r)

/- ===== create_match (lines 165-183); id generation passed in ===== -/

def create_match (playerId : PlayerId) (mId : String) : Match :=
  { id := mId
    players := [playerId]
    placements := []
    shots := []
    hits := []
    sunk := []
    turn := some playerId
    state := MState.waiting
    rematchVotes := []
    winner := none }

/- ===== join_match (lines 185-209); only the state effect ===== -/

def join_match (m : Match) (playerId : PlayerId) : Match :=
  if playerId ∈ m.players then m
  else if m.players.length ≥ 2 then m
  else { m with players := m.players ++ [playerId] }

/- ===== find_match (lines 211-261) ===== -/

structure QEntry where
  playerId : String
  socketId : String
deriving DecidableEq, Repr

inductive FindReply where
  | queued
  | matched (m : Match)
deriving DecidableEq, Repr

/-- The dedup-guarded push at the top of find_match. -/
def enqueue (q : List QEntry) (pid sid : String) : List QEntry :=
  if q.any (fun e => e.playerId == pid) then q
  else q ++ [{ playerId := pid, socketId := sid }]

/-- The match object built when find_match pairs two waiters a (first in)
and b: turn is preset to a. -/
def pairMatch (mId : String) (a b : QEntry) : Match :=
  { id := mId
    players := [a.playerId, b.playerId]
    placements := []
    shots := []
    hits := []
    sunk := []
    turn := some a.playerId
    state := MState.waiting
    rematchVotes := []
    winner := none }

/-- find_match: enqueue, then if at least two are waiting, shift the two
oldest entries and create the match (turn preset to the first-in player). -/
def find_match (q : List QEntry) (pid sid mId : String) :
    FindReply × List QEntry :=
  let q1 := enqueue q pid sid
  match q1 with
  | a :: b :: rest => (FindReply.matched (pairMatch mId a b), rest)
  | _ => (FindReply.queued, q1)

/- ===== place_ships (lines 263-288) ===== -/

def place_ships (m : Match) (playerId : PlayerId) (ships : List Ship) : Match :=
  let mP := { m with
    placements := setA m.placements playerId ships
    shots := ensureSet m.shots playerId
    hits := ensureSet m.hits playerId }
  if mP.placements.length = 2 ∧ mP.state ≠ MState.started then
    { mP with state := MState.started, turn := mP.players.head? }
  else mP

/- ===== shoot (lines 305-431) ===== -/

inductive ShotResult where
  | miss
  | hit
  | sunk
deriving DecidableEq, Repr

structure ShotPayload where
  matchId : String
  shooter : PlayerId
  x : Nat
  y : Nat
  result : ShotResult
  newTurn : Option PlayerId
  finished : Bool
  winner : Option PlayerId
  sunkShip : Option SunkShip
deriving DecidableEq, Repr

inductive ShootReply where
  | err_not_started
  | err_not_your_turn
  | err_already_shot (player : PlayerId) (x y idx : Nat)
  | err_no_opponent
  | ok (payload : ShotPayload)
deriving DecidableEq, Repr

/-- `ship.skinId || null`. -/
def skinOrNull (s : Option String) : Option String :=
  match s with
  | some v => if v = "" then none else some v
  | none => none

/-- The for-loop over the opponent's ships: find the first ship whose cell
list contains idx; on a hit add idx to the opponent's hit set and test whether
every cell of that ship is now hit.  Returns (hit, sunk, sunkShip, new hit set). -/
def scanShips (oppId : PlayerId) (idx : Nat) (hits0 : List Nat) :
    List Ship → Bool × Bool × Option SunkShip × List Nat
  | [] => (false, false, none, hits0)
  | ship :: rest =>
    let cells := ship.cells.getD []
    if idx ∈ cells then
      let hits1 := addSet hits0 idx
      if cells.all (fun c => hits1.contains c) then
        (true, true,
          some { cells := cells
                 size := ship.size
                 orientation := ship.orientation
                 skinId := skinOrNull ship.skinId
                 owner := oppId }, hits1)
      else (true, false, none, hits1)
    else scanShips oppId idx hits0 rest

/-- `sh.cells ? sh.cells.length : (sh.size || 0)`. -/
def shipParts (sh : Ship) : Nat :=
  match sh.cells with
  | some l => l.length
  | none => sh.size.getD 0

/-- oppShips.reduce((s, sh) => s + shipParts sh, 0). -/
def totalParts (ships : List Ship) : Nat :=
  (ships.map shipParts).sum

/-- The part of shoot after the guards, with the shot already recorded and
the opponent identified. -/
def resolveShot (m : Match) (r : Ratings) (playerId oppId : PlayerId)
    (x y idx : Nat) : ShootReply × Match × Ratings :=
  let oppShips := (lookupA m.placements oppId).getD []
  let sres := scanShips oppId idx (getSet m.hits oppId) oppShips
  let hitB := sres.1
  let sunkB := sres.2.1
  let sunkShip := sres.2.2.1
  let hits1 := sres.2.2.2
  let m1 := if hitB then { m with hits := setA m.hits oppId hits1 } else m
  let result :=
    if sunkB then ShotResult.sunk
    else if hitB then ShotResult.hit else ShotResult.miss
  let step2 :=
    match sunkShip with
    | some ss =>
      if sunkB then
        let m2 := { m1 with
          sunk := setA m1.sunk oppId (((lookupA m1.sunk oppId).getD []) ++ [ss]) }
        let tp := totalParts oppShips
        let hc := (getSet m2.hits oppId).length
        if 0 < tp ∧ tp ≤ hc then (m2, true, some playerId)
        else (m2, false, none)
      else (m1, false, none)
    | none => (m1, false, none)
  let m2 := step2.1
  let finished := step2.2.1
  let winner := step2.2.2
  let m3 :=
    if finished then { m2 with turn := none }
    else if result = ShotResult.miss then { m2 with turn := some oppId }
    else { m2 with turn := some playerId }
  let payload : ShotPayload :=
    { matchId := m3.id
      shooter := playerId
      x := x
      y := y
      result := result
      newTurn := if finished then none else m3.turn
      finished := finished
      winner := winner
      sunkShip := sunkShip }
  let fin := if finished then finishMatch m3 r winner else (m3, r)
  (ShootReply.ok payload, fin.1, fin.2)

/-- shoot: guards (state, turn, duplicate cell), record the shot, find the
opponent, then resolve.  The match_not_found branch lives in the registry and
is not part of the per-match transition. -/
def shoot (m : Match) (r : Ratings) (playerId : PlayerId) (x y : Nat) :
    ShootReply × Match × Ratings :=
  if m.state ≠ MState.started then (ShootReply.err_not_started, m, r)
  else if turnStr m.turn ≠ playerId then (ShootReply.err_not_your_turn, m, r)
  else
    let idx := cellIndex x y
    let mA := { m with shots := ensureSet m.shots playerId }
    if idx ∈ getSet mA.shots playerId then
      (ShootReply.err_already_shot playerId x y idx, mA, r)
    else
      let mB := { mA with
        shots := setA mA.shots playerId (addSet (getSet mA.shots playerId) idx) }
      match otherPlayer mB playerId with
      | none => (ShootReply.err_no_opponent, mB, r)
      | some oppId => resolveShot mB r playerId oppId x y idx

/- ===== request_rematch (lines 433-482); the random starter index is an
oracle parameter (Math.floor(Math.random()*players.length)) ===== -/

inductive RematchReply where
  | notAvailable
  | pending
  | rematchStarted (turn : Option PlayerId)
deriving DecidableEq, Repr

def request_rematch (m : Match) (playerId : PlayerId) (rnd : Nat) :
    RematchReply × Match :=
  if m.state ≠ MState.finished then (RematchReply.notAvailable, m)
  else
    let mV := { m with rematchVotes := addVote m.rematchVotes playerId }
    if mV.rematchVotes.length < mV.players.length then (RematchReply.pending, mV)
    else
      let starter := mV.players.get? rnd
      (RematchReply.rematchStarted starter,
        { mV with
          state := MState.waiting
          placements := []
          shots := []
          hits := []
          sunk := []
          rematchVotes := []
          turn := starter })

/- ===== leave (lines 484-506): effect on the match and the ratings; the
registry removal and queue removal are outside the per-match state ===== -/

def leave (m : Match) (r : Ratings) (playerId : PlayerId) : Match × Ratings :=
  if m.state = MState.started then
    finishMatch m r (otherPlayer m playerId)
  else
    ({ m with state := MState.aborted }, r)

/- ===== reachable match states ===== -/

/-- One mutating operation on a single match, as exposed by the socket
handlers.  The fire step carries an arbitrary ratings table (the match
component of shoot does not depend on it) and the rematch step carries the
random starter index as an oracle. -/
inductive Step : Match → Match → Prop where
  | join (m : Match) (pid : PlayerId) : Step m (join_match m pid)
  | place (m : Match) (pid : PlayerId) (ships : List Ship) :
      Step m (place_ships m pid ships)
  | fire (m : Match) (r : Ratings) (pid : PlayerId) (x y : Nat) :
      Step m (shoot m r pid x y).2.1
  | rematch (m : Match) (pid : PlayerId) (rnd : Nat) :
      Step m (request_rematch m pid rnd).2
  | leave_match (m : Match) (r : Ratings) (pid : PlayerId) :
      Step m (leave m r pid).1

/-- Match states reachable from the two creation paths (create_match and a
find_match pairing) by any sequence of operations. -/
inductive Reachable : Match → Prop where
  | created (pid : PlayerId) (mId : String) : Reachable (create_match pid mId)
  | paired (q : List QEntry) (pid sid mId : String) (m : Match) (q1 : List QEntry)
      (h : find_match q pid sid mId = (FindReply.matched m, q1)) : Reachable m
  | step (m m2 : Match) (hr : Reachable m) (hs : Step m m2) : Reachable m2

/- ===== basic lemmas about the JS-object / Set model ===== -/

theorem lookupA_setA {α : Type} (l : List (PlayerId × α)) (k q : PlayerId) (v : α) :
    lookupA (setA l k v) q = if q = k then some v else lookupA l q := by
  induction l with
  | nil =>
    by_cases h : q = k
    · simp [setA, lookupA, beq_iff_eq, h]
    · simp [setA, lookupA, beq_iff_eq, h, Ne.symm h]
  | cons e rest ih =>
    by_cases h : e.1 = k
    · by_cases hq : q = k
      · simp [setA, lookupA, beq_iff_eq, h, hq]
      · simp [setA, lookupA, beq_iff_eq, h, hq, Ne.symm hq]
    · by_cases he : e.1 = q
      · have hq : ¬q = k := fun hh => h (he.trans hh)
        simp [setA, lookupA, beq_iff_eq, h, he, hq, ih]
      · simp [setA, lookupA, beq_iff_eq, h, he, ih]

theorem length_le_setA {α : Type} (l : List (PlayerId × α)) (k : PlayerId) (v : α) :
    l.length ≤ (setA l k v).length := by
  induction l with
  | nil => simp [setA]
  | cons e rest ih =>
    simp only [setA]
    split
    · simp
    · simpa using ih

theorem getSet_setA (l : List (PlayerId × List Nat)) (k q : PlayerId) (v : List Nat) :
    getSet (setA l k v) q = if q = k then v else getSet l q := by
  simp only [getSet, lookupA_setA]
  split <;> rfl

theorem lookupA_append {α : Type} (l1 l2 : List (PlayerId × α)) (q : PlayerId) :
    lookupA (l1 ++ l2) q =
      match lookupA l1 q with
      | some v => some v
      | none => lookupA l2 q := by
  induction l1 with
  | nil => simp [lookupA]
  | cons e rest ih =>
    simp only [List.cons_append, lookupA]
    split <;> simp [ih]

theorem getSet_ensureSet (l : List (PlayerId × List Nat)) (k q : PlayerId) :
    getSet (ensureSet l k) q = getSet l q := by
  unfold ensureSet
  split
  · rfl
  · rename_i hnone
    simp only [getSet, lookupA_append]
    cases hq : lookupA l q with
    | some v => simp
    | none =>
      simp only [lookupA, beq_iff_eq]
      by_cases h : k = q
      · subst h
        rw [hq] at hnone
        simp at hnone ⊢
      · simp [h]

theorem mem_addSet (s : List Nat) (i j : Nat) :
    j ∈ addSet s i ↔ j ∈ s ∨ j = i := by
  unfold addSet
  split
  · rename_i h
    constructor
    · exact Or.inl
    · rintro (hj | rfl)
      · exact hj
      · exact h
  · simp

theorem addSet_nodup (s : List Nat) (i : Nat) (h : s.Nodup) :
    (addSet s i).Nodup := by
  unfold addSet
  split
  · exact h
  · rename_i hni
    simp [List.nodup_append, h, hni]

theorem addVote_length_le (s : List PlayerId) (p : PlayerId) :
    s.length ≤ (addVote s p).length := by
  unfold addVote
  split
  · exact le_refl _
  · simp

/- ===== scanShips lemmas ===== -/

theorem scanShips_sunk_isSome (oppId : PlayerId) (idx : Nat) (hits0 : List Nat)
    (ships : List Ship) :
    (scanShips oppId idx hits0 ships).2.1 =
      (scanShips oppId idx hits0 ships).2.2.1.isSome ∧
    ((scanShips oppId idx hits0 ships).2.1 = true →
      (scanShips oppId idx hits0 ships).1 = true) := by
  induction ships with
  | nil => simp [scanShips]
  | cons ship rest ih =>
    simp only [scanShips]
    split
    · split <;> simp
    · exact ih

theorem scanShips_sunk_cells (oppId : PlayerId) (idx : Nat) (hits0 : List Nat)
    (ships : List Ship) (hitB : Bool) (ss : SunkShip) (hits1 : List Nat)
    (h : scanShips oppId idx hits0 ships = (hitB, true, some ss, hits1)) :
    (∀ c ∈ ss.cells, c ∈ hits1) ∧
    (∃ sh ∈ ships, sh.cells.getD [] = ss.cells) := by
  induction ships with
  | nil => simp [scanShips] at h
  | cons ship rest ih =>
    simp only [scanShips] at h
    by_cases hc : idx ∈ ship.cells.getD []
    · rw [if_pos hc] at h
      by_cases hall :
          (ship.cells.getD []).all (fun c => (addSet hits0 idx).contains c) = true
      · rw [if_pos hall] at h
        simp only [Prod.mk.injEq, Option.some.injEq] at h
        obtain ⟨-, -, hss, hh1⟩ := h
        subst hh1
        constructor
        · intro c hcmem
          have := List.all_eq_true.mp hall c (by rw [← hss] at hcmem; exact hcmem)
          simpa [List.contains, List.elem_eq_mem] using this
        · exact ⟨ship, List.mem_cons_self _ _, by rw [← hss]⟩
      · rw [if_neg hall] at h
        simp at h
    · rw [if_neg hc] at h
      obtain ⟨h1, h2⟩ := ih h
      exact ⟨h1, by
        obtain ⟨sh, hsh, hcells⟩ := h2
        exact ⟨sh, List.mem_cons_of_mem _ hsh, hcells⟩⟩

/- ===== characterization of finishMatch and shoot ===== -/

/-- On a started match, finishMatch only sets state and winner; the rating
table is updated separately. -/
theorem finishMatch_match (m : Match) (r : Ratings) (w : Option PlayerId)
    (h : m.state = MState.started) :
    (finishMatch m r w).1 =
      { m with state := MState.finished, winner := truthyStr w } := by
  unfold finishMatch
  rw [h]
  simp only [reduceCtorEq, or_self, if_false]
  cases truthyStr w with
  | none => rfl
  | some v =>
    simp only
    split
    · split <;> rfl
    · rfl

/-- The match with the shot at index idx recorded against the shooter
(the ensure-then-add pair of lines in shoot). -/
def recordShot (m : Match) (pid : PlayerId) (idx : Nat) : Match :=
  { m with shots := setA (ensureSet m.shots pid) pid (addSet (getSet (ensureSet m.shots pid) pid) idx) }

/-- Inverting an accepted shot: the guards passed, the shot got recorded, an
opponent exists, and the outcome is resolveShot on the recorded state. -/
theorem shoot_ok_elim (m : Match) (r : Ratings) (pid : PlayerId) (x y : Nat)
    (pl : ShotPayload) (m2 : Match) (r2 : Ratings)
    (h : shoot m r pid x y = (ShootReply.ok pl, m2, r2)) :
    m.state = MState.started ∧ turnStr m.turn = pid ∧
    cellIndex x y ∉ getSet m.shots pid ∧
    ∃ oppId, otherPlayer m pid = some oppId ∧
      resolveShot (recordShot m pid (cellIndex x y)) r pid oppId x y (cellIndex x y)
        = (ShootReply.ok pl, m2, r2) := by
  unfold shoot at h
  split at h
  · simp at h
  · split at h
    · simp at h
    · dsimp only at h
      split at h
      · simp at h
      · split at h
        · simp at h
        · rename_i hs ht hmem x1 oppId heq
          push_neg at hs ht
          rw [getSet_ensureSet] at hmem
          refine ⟨hs, ht, hmem, oppId, ?_, ?_⟩
          · simpa [otherPlayer] using heq
          · exact h

/-- Field-level description of resolveShot in terms of the scan outcome:
result classification, the finish condition (a sunk result with a positive
opponent cell total fully covered by the hit set), winner, the turn rule,
and which match fields change. -/
theorem resolveShot_fields (m : Match) (r : Ratings) (pid oppId : PlayerId)
    (x y idx : Nat) (hitB sunkB : Bool) (ss : Option SunkShip) (hits1 : List Nat)
    (pl : ShotPayload) (m2 : Match) (r2 : Ratings)
    (hscan : scanShips oppId idx (getSet m.hits oppId)
        ((lookupA m.placements oppId).getD []) = (hitB, sunkB, ss, hits1))
    (hres : resolveShot m r pid oppId x y idx = (ShootReply.ok pl, m2, r2))
    (hstate : m.state = MState.started) :
    pl.result = (if sunkB then ShotResult.sunk
      else if hitB then ShotResult.hit else ShotResult.miss) ∧
    pl.finished = (sunkB && decide (0 < totalParts ((lookupA m.placements oppId).getD [])
      ∧ totalParts ((lookupA m.placements oppId).getD []) ≤ hits1.length)) ∧
    pl.winner = (if pl.finished then some pid else none) ∧
    pl.newTurn = (if pl.finished then none
      else if pl.result = ShotResult.miss then some oppId else some pid) ∧
    pl.sunkShip = ss ∧
    m2.turn = pl.newTurn ∧
    m2.state = (if pl.finished then MState.finished else MState.started) ∧
    m2.players = m.players ∧ m2.placements = m.placements ∧ m2.shots = m.shots ∧
    m2.hits = (if hitB then setA m.hits oppId hits1 else m.hits) ∧
    pl.shooter = pid ∧ pl.x = x ∧ pl.y = y ∧ m2.id = m.id := by
  have hcons := scanShips_sunk_isSome oppId idx (getSet m.hits oppId)
    ((lookupA m.placements oppId).getD [])
  rw [hscan] at hcons
  obtain ⟨hc1, hc2⟩ := hcons
  dsimp only at hc1 hc2
  unfold resolveShot at hres
  dsimp only at hres
  rw [hscan] at hres
  dsimp only at hres
  cases ss with
  | none =>
    have hsf : sunkB = false := by simpa using hc1
    subst hsf
    cases hitB with
    | false =>
      simp only [Bool.false_eq_true, if_false, reduceCtorEq, reduceIte] at hres
      simp only [Prod.mk.injEq, ShootReply.ok.injEq] at hres
      obtain ⟨hpl, hm2, hr2⟩ := hres
      subst hpl
      subst hm2
      simp [hstate]
    | true =>
      simp only [if_true, reduceCtorEq, reduceIte, Bool.false_eq_true, if_false] at hres
      simp only [Prod.mk.injEq, ShootReply.ok.injEq] at hres
      obtain ⟨hpl, hm2, hr2⟩ := hres
      subst hpl
      subst hm2
      simp [hstate]
  | some s =>
    have hst : sunkB = true := by simpa using hc1
    subst hst
    have hht : hitB = true := hc2 rfl
    subst hht
    simp only [if_true] at hres
    have hgs : getSet (setA m.hits oppId hits1) oppId = hits1 := by
      simp [getSet_setA]
    rw [hgs] at hres
    by_cases hcond : 0 < totalParts ((lookupA m.placements oppId).getD [])
        ∧ totalParts ((lookupA m.placements oppId).getD []) ≤ hits1.length
    · rw [if_pos hcond] at hres
      simp only [reduceIte, reduceCtorEq] at hres
      rw [finishMatch_match _ _ _ (by exact hstate)] at hres
      simp only [Prod.mk.injEq, ShootReply.ok.injEq] at hres
      obtain ⟨hpl, hm2, hr2⟩ := hres
      subst hpl
      subst hm2
      simp [hcond]
    · rw [if_neg hcond] at hres
      simp only [reduceCtorEq, reduceIte] at hres
      simp only [Prod.mk.injEq, ShootReply.ok.injEq] at hres
      obtain ⟨hpl, hm2, hr2⟩ := hres
      subst hpl
      subst hm2
      simp [hstate, hcond]

/- ===== invariants of reachable match states ===== -/

/-- Invariants maintained by every reachable match state: a nonempty player
list; in a started match a turn pointing at a participant and at least two
placement entries; and duplicate-free shot sets. -/
def Inv (m : Match) : Prop :=
  m.players ≠ [] ∧
  (m.state = MState.started →
    (∃ p, m.turn = some p ∧ p ∈ m.players) ∧ 2 ≤ m.placements.length) ∧
  (∀ p, (getSet m.shots p).Nodup)

theorem inv_create (pid : PlayerId) (mId : String) : Inv (create_match pid mId) := by
  refine ⟨by simp [create_match], ?_, ?_⟩
  · intro hs
    simp [create_match] at hs
  · intro p
    simp [create_match, getSet, lookupA]

/-- Inverting a successful pairing in find_match. -/
theorem find_match_matched (q : List QEntry) (pid sid mId : String) (m : Match)
    (q1 : List QEntry) (h : find_match q pid sid mId = (FindReply.matched m, q1)) :
    ∃ a b rest, enqueue q pid sid = a :: b :: rest ∧ q1 = rest ∧ m = pairMatch mId a b := by
  unfold find_match at h
  dsimp only at h
  split at h
  · rename_i a b rest heq
    simp only [Prod.mk.injEq, FindReply.matched.injEq] at h
    exact ⟨a, b, rest, heq, h.2.symm, h.1.symm⟩
  · simp at h

theorem inv_pairMatch (mId : String) (a b : QEntry) : Inv (pairMatch mId a b) := by
  refine ⟨by simp [pairMatch], ?_, ?_⟩
  · intro hs
    simp [pairMatch] at hs
  · intro p
    simp [pairMatch, getSet, lookupA]

theorem inv_join (m : Match) (pid : PlayerId) (h : Inv m) : Inv (join_match m pid) := by
  obtain ⟨h1, h2, h3⟩ := h
  unfold join_match
  split
  · exact ⟨h1, h2, h3⟩
  · split
    · exact ⟨h1, h2, h3⟩
    · refine ⟨by simp, ?_, h3⟩
      intro hs
      obtain ⟨⟨p, hp, hpm⟩, hplen⟩ := h2 hs
      exact ⟨⟨p, hp, List.mem_append_left _ hpm⟩, hplen⟩

theorem inv_place (m : Match) (pid : PlayerId) (ships : List Ship) (h : Inv m) :
    Inv (place_ships m pid ships) := by
  obtain ⟨h1, h2, h3⟩ := h
  have hsh : ∀ p, (getSet (ensureSet m.shots pid) p).Nodup := by
    intro p
    rw [getSet_ensureSet]
    exact h3 p
  unfold place_ships
  dsimp only
  split
  · rename_i hcond
    obtain ⟨hlen, hst⟩ := hcond
    refine ⟨h1, ?_, hsh⟩
    intro _
    constructor
    · cases hp : m.players with
      | nil => exact absurd hp h1
      | cons a rest => exact ⟨a, by simp [hp], by simp [hp]⟩
    · have hlen2 : (setA m.placements pid ships).length = 2 := hlen
      show 2 ≤ (setA m.placements pid ships).length
      omega
  · refine ⟨h1, ?_, hsh⟩
    intro hs
    obtain ⟨hpturn, hplen⟩ := h2 hs
    exact ⟨hpturn, le_trans hplen (length_le_setA _ _ _)⟩

/-- resolveShot always produces an ok reply. -/
theorem resolveShot_is_ok (m : Match) (r : Ratings) (pid oppId : PlayerId)
    (x y idx : Nat) :
    ∃ pl, (resolveShot m r pid oppId x y idx).1 = ShootReply.ok pl := by
  unfold resolveShot
  dsimp only
  exact ⟨_, rfl⟩

theorem inv_shoot (m : Match) (r : Ratings) (pid : PlayerId) (x y : Nat)
    (h : Inv m) : Inv (shoot m r pid x y).2.1 := by
  obtain ⟨h1, h2, h3⟩ := h
  have hsh : ∀ p, (getSet (ensureSet m.shots pid) p).Nodup := by
    intro p
    rw [getSet_ensureSet]
    exact h3 p
  unfold shoot
  dsimp only
  split
  · exact ⟨h1, h2, h3⟩
  · split
    · exact ⟨h1, h2, h3⟩
    · split
      · exact ⟨h1, h2, hsh⟩
      · rename_i hstateNe hturn hmem
        have hstarted : m.state = MState.started := by
          by_contra hc
          exact hstateNe (by simpa using hc)
        have hpid : turnStr m.turn = pid := by
          by_contra hc
          exact hturn (by simpa using hc)
        have hrec : ∀ p, (getSet (setA (ensureSet m.shots pid) pid
            (addSet (getSet (ensureSet m.shots pid) pid) (cellIndex x y))) p).Nodup := by
          intro p
          rw [getSet_setA]
          split
          · exact addSet_nodup _ _ (hsh pid)
          · exact hsh p
        split
        · exact ⟨h1, h2, hrec⟩
        · rename_i oppId heq
          show Inv (resolveShot (recordShot m pid (cellIndex x y)) r pid oppId x y (cellIndex x y)).2.1
          obtain ⟨pl, hplok⟩ := resolveShot_is_ok
            (recordShot m pid (cellIndex x y)) r pid oppId x y (cellIndex x y)
          have hres : resolveShot (recordShot m pid (cellIndex x y)) r pid oppId x y (cellIndex x y)
              = (ShootReply.ok pl,
                 (resolveShot (recordShot m pid (cellIndex x y)) r pid oppId x y (cellIndex x y)).2.1,
                 (resolveShot (recordShot m pid (cellIndex x y)) r pid oppId x y (cellIndex x y)).2.2) := by
            rw [← hplok]
          rcases hscan : scanShips oppId (cellIndex x y)
              (getSet (recordShot m pid (cellIndex x y)).hits oppId)
              ((lookupA (recordShot m pid (cellIndex x y)).placements oppId).getD [])
            with ⟨hitB, sunkB, ss, hits1⟩
          obtain ⟨-, hfin, -, hnt, -, hturn2, hstate2, hplayers2, hplace2, hshots2, -, -, -, -, -⟩ :=
            resolveShot_fields (recordShot m pid (cellIndex x y)) r pid oppId x y (cellIndex x y)
              hitB sunkB ss hits1 pl _ _ hscan hres (by exact hstarted)
          refine ⟨?_, ?_, ?_⟩
          · rw [hplayers2]
            exact h1
          · intro hs
            rw [hstate2] at hs
            have hfinF : pl.finished = false := by
              cases hfb : pl.finished
              · rfl
              · rw [hfb] at hs
                simp at hs
            rw [hfinF] at hnt
            simp only [Bool.false_eq_true, if_false] at hnt
            constructor
            · rw [hturn2, hnt]
              split
              · -- newTurn = some oppId
                refine ⟨oppId, rfl, ?_⟩
                rw [hplayers2]
                have : oppId ∈ (recordShot m pid (cellIndex x y)).players :=
                  List.mem_of_find?_eq_some heq
                simpa [recordShot] using this
              · -- newTurn = some pid
                refine ⟨pid, rfl, ?_⟩
                rw [hplayers2]
                obtain ⟨⟨p, hp, hpm⟩, -⟩ := h2 hstarted
                have : p = pid := by
                  rw [hp] at hpid
                  simpa [turnStr] using hpid
                rw [← this]
                simpa [recordShot] using hpm
            · rw [hplace2]
              obtain ⟨-, hplen⟩ := h2 hstarted
              simpa [recordShot] using hplen
          · intro p
            rw [hshots2]
            have := hrec p
            simpa [recordShot] using this

theorem inv_rematch (m : Match) (pid : PlayerId) (rnd : Nat) (h : Inv m) :
    Inv (request_rematch m pid rnd).2 := by
  obtain ⟨h1, h2, h3⟩ := h
  unfold request_rematch
  dsimp only
  split
  · exact ⟨h1, h2, h3⟩
  · split
    · exact ⟨h1, h2, h3⟩
    · refine ⟨h1, ?_, ?_⟩
      · intro hs
        simp at hs
      · intro p
        simp [getSet, lookupA]

theorem inv_leave (m : Match) (r : Ratings) (pid : PlayerId) (h : Inv m) :
    Inv (leave m r pid).1 := by
  obtain ⟨h1, h2, h3⟩ := h
  unfold leave
  split
  · rename_i hst
    rw [finishMatch_match _ _ _ hst]
    refine ⟨h1, ?_, h3⟩
    intro hs
    simp at hs
  · refine ⟨h1, ?_, h3⟩
    intro hs
    simp at hs

/-- Every reachable match state satisfies the invariant. -/
theorem reachable_inv (m : Match) (h : Reachable m) : Inv m := by
  induction h with
  | created pid mId => exact inv_create pid mId
  | paired q pid sid mId m q1 hf =>
    obtain ⟨a, b, rest, -, -, hm⟩ := find_match_matched q pid sid mId m q1 hf
    rw [hm]
    exact inv_pairMatch mId a b
  | step m m2 hr hs ih =>
    cases hs with
    | join pid => exact inv_join m pid ih
    | place pid ships => exact inv_place m pid ships ih
    | fire r pid x y => exact inv_shoot m r pid x y ih
    | rematch pid rnd => exact inv_rematch m pid rnd ih
    | leave_match r pid => exact inv_leave m r pid ih

/- ===== concrete fixtures used by witnesses and counterexamples ===== -/

/-- A well-formed client ship covering the given cells. -/
def shipC (cs : List Nat) : Ship :=
  { cells := some cs, size := some cs.length, orientation := some "h", skinId := none }

/-- A two-player match: A creates, B joins. -/
def gBase : Match := join_match (create_match "A" "m1") "B"

/-- Both players place their fleets; the match starts with turn = A. -/
def gAB (sA sB : List Ship) : Match :=
  place_ships (place_ships gBase "A" sA) "B" sB

/- ===== Claim C1 ===== -/

/-- Claim C1: in a started two-player match, an accepted fire that misses
sets the turn (and returned newTurn) to the non-shooting player; a hit or
sunk keeps the turn (and newTurn) on the shooter, unless the shot finished
the match, in which case the turn is cleared and newTurn is null. -/
theorem C1_turn_alternation (m : Match) (r : Ratings) (pid p1 p2 : PlayerId)
    (x y : Nat) (pl : ShotPayload) (m2 : Match) (r2 : Ratings)
    (hp : m.players = [p1, p2]) (hne : p1 ≠ p2) (hmem : pid = p1 ∨ pid = p2)
    (h : shoot m r pid x y = (ShootReply.ok pl, m2, r2)) :
    (pl.result = ShotResult.miss →
      pl.newTurn = some (if pid = p1 then p2 else p1) ∧
      m2.turn = some (if pid = p1 then p2 else p1)) ∧
    (pl.result ≠ ShotResult.miss → pl.finished = false →
      pl.newTurn = some pid ∧ m2.turn = some pid) ∧
    (pl.finished = true → pl.newTurn = none ∧ m2.turn = none) := by
  obtain ⟨hstate, hturn, hnm, oppId, hopp, hres⟩ := shoot_ok_elim m r pid x y pl m2 r2 h
  have hoppval : oppId = (if pid = p1 then p2 else p1) := by
    rcases hmem with rfl | rfl
    · have hb : (p2 != pid) = true := by
        simpa [bne_iff_ne] using Ne.symm hne
      have hv : otherPlayer m pid = some p2 := by
        simp [otherPlayer, hp, List.find?, hb]
      rw [hv] at hopp
      simp at hopp
      simp [hopp.symm]
    · have hb : (p1 != pid) = true := by
        simpa [bne_iff_ne] using hne
      have hv : otherPlayer m pid = some p1 := by
        simp [otherPlayer, hp, List.find?, hb]
      rw [hv] at hopp
      simp at hopp
      rw [if_neg (Ne.symm hne)]
      exact hopp.symm
  rcases hscan : scanShips oppId (cellIndex x y)
      (getSet (recordShot m pid (cellIndex x y)).hits oppId)
      ((lookupA (recordShot m pid (cellIndex x y)).placements oppId).getD [])
    with ⟨hitB, sunkB, ss, hits1⟩
  obtain ⟨hresult, hfin, hwin, hnt, hss, hturn2, hstate2, hplayers2, hplace2,
      hshots2, hhits2, hshoot, hx, hy, hid⟩ :=
    resolveShot_fields (recordShot m pid (cellIndex x y)) r pid oppId x y (cellIndex x y)
      hitB sunkB ss hits1 pl m2 r2 hscan hres (by exact hstate)
  refine ⟨?_, ?_, ?_⟩
  · intro hmiss
    have hsB : sunkB = false := by
      cases hsb : sunkB
      · rfl
      · rw [hsb, hmiss] at hresult
        simp at hresult
    have hfinF : pl.finished = false := by
      rw [hsB] at hfin
      simpa using hfin
    rw [hfinF, hmiss] at hnt
    simp at hnt
    rw [← hoppval]
    exact ⟨hnt, by rw [hturn2, hnt]⟩
  · intro hnmiss hfinF
    rw [hfinF] at hnt
    simp only [Bool.false_eq_true, if_false] at hnt
    rw [if_neg hnmiss] at hnt
    exact ⟨hnt, by rw [hturn2, hnt]⟩
  · intro hfinT
    rw [hfinT] at hnt
    simp only [if_true] at hnt
    exact ⟨hnt, by rw [hturn2, hnt]⟩

/-- Witness for C1: in the concrete started match where A holds ship [0] and
B holds ship [5,6], the accepted hit at (5,0) keeps the turn on A. -/
theorem C1_turn_alternation_witness :
    (shoot (gAB [shipC [0]] [shipC [5, 6]]) [] "A" 5 0).2.1.turn = some "A" := by
  have h := C1_turn_alternation (gAB [shipC [0]] [shipC [5, 6]]) [] "A" "A" "B" 5 0
    { matchId := "m1", shooter := "A", x := 5, y := 0, result := ShotResult.hit,
      newTurn := some "A", finished := false, winner := none, sunkShip := none }
    ((shoot (gAB [shipC [0]] [shipC [5, 6]]) [] "A" 5 0).2.1)
    ((shoot (gAB [shipC [0]] [shipC [5, 6]]) [] "A" 5 0).2.2)
    (by decide) (by decide) (Or.inl rfl) (by decide)
  exact (h.2.1 (by decide) (by decide)).2

/- ===== Claim C2 ===== -/

/-- The reply payload of the C2 counterexample shot. -/
def c2pl : ShotPayload :=
  { matchId := "m1"
    shooter := "A"
    x := 0
    y := 0
    result := ShotResult.miss
    newTurn := some "B"
    finished := false
    winner := none
    sunkShip := none }

/-- Claim C2 counterexample: in the reachable started match where B submitted
an empty fleet, A's accepted shot at (0,0) leaves the opponent hit-set size
equal to the opponent total ship-cell count (0 = 0), yet the match does not
transition to finished — refuting the claimed "if and only if". -/
theorem C2_counterexample :
    (gAB [shipC [0]] []).state = MState.started ∧
    Reachable (gAB [shipC [0]] []) ∧
    otherPlayer (gAB [shipC [0]] []) "A" = some "B" ∧
    (shoot (gAB [shipC [0]] []) [] "A" 0 0).1 = ShootReply.ok c2pl ∧
    (getSet (shoot (gAB [shipC [0]] []) [] "A" 0 0).2.1.hits "B").length =
      totalParts ((lookupA (gAB [shipC [0]] []).placements "B").getD []) ∧
    (shoot (gAB [shipC [0]] []) [] "A" 0 0).2.1.state = MState.started := by
  refine ⟨by decide, ?_, by decide, by decide, by decide, by decide⟩
  show Reachable (place_ships (place_ships (join_match (create_match "A" "m1") "B")
    "A" [shipC [0]]) "B" [])
  exact Reachable.step _ _ (Reachable.step _ _ (Reachable.step _ _
    (Reachable.created "A" "m1") (Step.join _ "B")) (Step.place _ "A" _))
    (Step.place _ "B" _)

/-- Claim C2 amended: an accepted fire transitions the match to finished with
winner = shooter exactly when the shot's result is sunk, the opponent's total
ship-cell count is positive, and the opponent's hit-set size after recording
the shot has reached that total. -/
theorem C2_finish_condition_amended (m : Match) (r : Ratings) (pid oppId : PlayerId)
    (x y : Nat) (pl : ShotPayload) (m2 : Match) (r2 : Ratings)
    (h : shoot m r pid x y = (ShootReply.ok pl, m2, r2))
    (hopp : otherPlayer m pid = some oppId) :
    (pl.finished = true ↔
      pl.result = ShotResult.sunk ∧
      0 < totalParts ((lookupA m.placements oppId).getD []) ∧
      totalParts ((lookupA m.placements oppId).getD []) ≤ (getSet m2.hits oppId).length) ∧
    (pl.finished = true → pl.winner = some pid ∧ m2.state = MState.finished) ∧
    (pl.finished = false → pl.winner = none ∧ m2.state = MState.started) := by
  obtain ⟨hstate, hturn, hnm, oppId2, hopp2, hres⟩ := shoot_ok_elim m r pid x y pl m2 r2 h
  rw [hopp] at hopp2
  have hoppeq : oppId2 = oppId := by
    simpa using hopp2.symm
  rw [hoppeq] at hres
  have hcons := scanShips_sunk_isSome oppId (cellIndex x y)
    (getSet (recordShot m pid (cellIndex x y)).hits oppId)
    ((lookupA (recordShot m pid (cellIndex x y)).placements oppId).getD [])
  rcases hscan : scanShips oppId (cellIndex x y)
      (getSet (recordShot m pid (cellIndex x y)).hits oppId)
      ((lookupA (recordShot m pid (cellIndex x y)).placements oppId).getD [])
    with ⟨hitB, sunkB, ss, hits1⟩
  rw [hscan] at hcons
  dsimp only at hcons
  obtain ⟨hcA, hcB⟩ := hcons
  obtain ⟨hresult, hfin, hwin, hnt, hss, hturn2, hstate2, hplayers2, hplace2,
      hshots2, hhits2, hshoot, hx, hy, hid⟩ :=
    resolveShot_fields (recordShot m pid (cellIndex x y)) r pid oppId x y (cellIndex x y)
      hitB sunkB ss hits1 pl m2 r2 hscan hres (by exact hstate)
  have hplacem : (lookupA (recordShot m pid (cellIndex x y)).placements oppId)
      = lookupA m.placements oppId := by
    simp [recordShot]
  rw [hplacem] at hfin
  refine ⟨?_, ?_, ?_⟩
  · cases hsb : sunkB with
    | false =>
      rw [hsb] at hfin
      simp only [Bool.false_and] at hfin
      rw [hfin]
      constructor
      · intro hc
        simp at hc
      · rintro ⟨hrs, -, -⟩
        rw [hsb] at hresult
        simp only [Bool.false_eq_true, if_false] at hresult
        rw [hresult] at hrs
        split at hrs <;> simp at hrs
    | true =>
      have hhb : hitB = true := hcB hsb
      rw [hsb] at hfin hresult
      simp only [if_true, Bool.true_and] at hfin hresult
      rw [hhb] at hhits2
      simp only [if_true] at hhits2
      have hgs : getSet m2.hits oppId = hits1 := by
        rw [hhits2]
        have : getSet (recordShot m pid (cellIndex x y)).hits oppId
            = getSet m.hits oppId := by simp [recordShot, getSet]
        rw [getSet_setA]
        simp
      rw [hfin, hresult, hgs]
      constructor
      · intro hc
        have := of_decide_eq_true hc
        exact ⟨rfl, this.1, this.2⟩
      · rintro ⟨-, hc1, hc2⟩
        exact decide_eq_true ⟨hc1, hc2⟩
  · intro hft
    rw [hft] at hwin hstate2
    simp only [if_true] at hwin hstate2
    exact ⟨hwin, hstate2⟩
  · intro hff
    rw [hff] at hwin hstate2
    simp only [Bool.false_eq_true, if_false] at hwin hstate2
    exact ⟨hwin, hstate2⟩

/-- The sunkShip descriptor of the finishing shot used in the C2 and C9
witnesses. -/
def c2wss : SunkShip :=
  { cells := [5]
    size := some 1
    orientation := some "h"
    skinId := none
    owner := "B" }

/-- The reply payload of the finishing shot used in the C2 and C9 witnesses. -/
def c2wpl : ShotPayload :=
  { matchId := "m1"
    shooter := "A"
    x := 5
    y := 0
    result := ShotResult.sunk
    newTurn := none
    finished := true
    winner := some "A"
    sunkShip := some c2wss }

/-- Witness for C2 amended: sinking B's only ship at (5,0) finishes the
concrete match with winner A. -/
theorem C2_finish_condition_witness :
    (shoot (gAB [shipC [0]] [shipC [5]]) [] "A" 5 0).2.1.state = MState.finished := by
  have h := C2_finish_condition_amended (gAB [shipC [0]] [shipC [5]]) [] "A" "B" 5 0
    c2wpl
    ((shoot (gAB [shipC [0]] [shipC [5]]) [] "A" 5 0).2.1)
    ((shoot (gAB [shipC [0]] [shipC [5]]) [] "A" 5 0).2.2)
    (by decide) (by decide)
  exact (h.2.1 (by decide)).2

/- ===== Claim C3 ===== -/

/-- The concrete match for the C3 counterexample: B's ship occupies linear
indices 15 and 16. -/
def c3m : Match := gAB [shipC [0]] [shipC [15, 16]]

/-- A's first, accepted shot at on-board (5,1), i.e. linear index 15. -/
def c3s1 : ShootReply × Match × Ratings := shoot c3m [] "A" 5 1

/-- A's second shot at off-board (15,0), which aliases to index 15 again. -/
def c3s2 : ShootReply × Match × Ratings := shoot c3s1.2.1 c3s1.2.2 "A" 15 0

/-- The reply payload of the first C3 shot. -/
def c3pl : ShotPayload :=
  { matchId := "m1"
    shooter := "A"
    x := 5
    y := 1
    result := ShotResult.hit
    newTurn := some "A"
    finished := false
    winner := none
    sunkShip := none }

/-- Claim C3 counterexample: the only recorded shot at index 15 was fired at
(5,1), yet the already_shot rejection of the aliased second call carries
(15,0) — not the previously recorded coordinates — so the error does not
carry the previously recorded fact. The rejection does leave the state
unchanged. -/
theorem C3_counterexample :
    c3s1.1 = ShootReply.ok c3pl ∧
    c3s2.1 = ShootReply.err_already_shot "A" 15 0 15 ∧
    (15 ≠ 5 ∨ 0 ≠ 1) ∧
    c3s2.2.1 = c3s1.2.1 ∧ c3s2.2.2 = c3s1.2.2 := by
  refine ⟨by decide, by decide, Or.inl (by decide), by decide, by decide⟩

/-- Claim C3 amended: a second fire at an already-shot cell index is rejected
with already_shot carrying the rejected call's (player, x, y, idx) — whose
player and idx necessarily coincide with those of the recorded shot, though
x,y may differ under aliasing — and the rejection leaves the match and rating
state entirely unchanged; moreover in every reachable match no index appears
twice in any player's shot set. -/
theorem C3_already_shot_amended :
    (∀ (m : Match) (r : Ratings) (pid : PlayerId) (x y : Nat),
      m.state = MState.started → turnStr m.turn = pid →
      cellIndex x y ∈ getSet m.shots pid →
      shoot m r pid x y = (ShootReply.err_already_shot pid x y (cellIndex x y), m, r)) ∧
    (∀ m : Match, Reachable m → ∀ p : PlayerId, (getSet m.shots p).Nodup) := by
  constructor
  · intro m r pid x y hstate hturn hmem
    have hsome : (lookupA m.shots pid).isSome := by
      by_contra hc
      rw [Option.not_isSome_iff_eq_none] at hc
      rw [getSet, hc] at hmem
      simp at hmem
    have hens : ensureSet m.shots pid = m.shots := by
      unfold ensureSet
      rw [if_pos hsome]
    unfold shoot
    rw [if_neg (by simp [hstate]), if_neg (by simp [hturn])]
    dsimp only
    rw [hens]
    rw [if_pos hmem]
  · intro m hr p
    exact (reachable_inv m hr).2.2 p

/-- A started match in which A has already fired at index 0. -/
def c3w : Match :=
  { id := "w"
    players := ["A", "B"]
    placements := []
    shots := [("A", [0])]
    hits := []
    sunk := []
    turn := some "A"
    state := MState.started
    rematchVotes := []
    winner := none }

/-- Witness for C3 amended, at concrete inputs for both conjuncts. -/
theorem C3_already_shot_witness :
    shoot c3w [] "A" 0 0 = (ShootReply.err_already_shot "A" 0 0 0, c3w, []) ∧
    (getSet (create_match "A" "m1").shots "A").Nodup :=
  ⟨C3_already_shot_amended.1 c3w [] "A" 0 0 (by decide) (by decide) (by decide),
   C3_already_shot_amended.2 (create_match "A" "m1") (Reachable.created "A" "m1") "A"⟩

/- ===== Claim C4 ===== -/

theorem getRating_seed (r : Ratings) (p : PlayerId) (h : lookupA r p = none) :
    (getRating r p).2 = BASE_RATING := by
  unfold getRating
  rw [h]

/-- Seeding one player does not change the value read for a different player. -/
theorem getRating_other (r : Ratings) (w l : PlayerId) (hne : l ≠ w) :
    (getRating (getRating r w).1 l).2 = (getRating r l).2 := by
  unfold getRating
  cases hw : lookupA r w with
  | some v => rfl
  | none =>
    dsimp only
    rw [lookupA_append]
    cases hl : lookupA r l with
    | some v => rfl
    | none =>
      simp only [lookupA, beq_iff_eq]
      rw [if_neg (Ne.symm hne)]

/-- Claim C4: the rating update is the fixed-delta policy: from the
pre-update (seeded) pair, the winner gains exactly 25 and the loser loses 25
clamped at 0; a first-referenced player is seeded at 1000 beforehand. -/
theorem C4_rating_fixed_delta (r : Ratings) (w l : PlayerId) (hne : w ≠ l) :
    lookupA (applyMatchResult r w l).1 w = some ((getRating r w).2 + RATING_DELTA) ∧
    lookupA (applyMatchResult r w l).1 l = some (max 0 ((getRating r l).2 - RATING_DELTA)) ∧
    (applyMatchResult r w l).2 =
      ((getRating r w).2 + RATING_DELTA, max 0 ((getRating r l).2 - RATING_DELTA)) ∧
    (lookupA r w = none → (getRating r w).2 = BASE_RATING) ∧
    (lookupA r l = none → (getRating r l).2 = BASE_RATING) := by
  have hb2 : (getRating (getRating r w).1 l).2 = (getRating r l).2 :=
    getRating_other r w l (Ne.symm hne)
  unfold applyMatchResult
  dsimp only
  rw [hb2]
  refine ⟨?_, ?_, rfl, fun h => getRating_seed r w h, fun h => getRating_seed r l h⟩
  · rw [lookupA_setA, if_neg hne, lookupA_setA, if_pos rfl]
  · rw [lookupA_setA, if_pos rfl]

/-- Witness for C4: two fresh players are seeded at 1000 and end at
1025 and 975. -/
theorem C4_rating_witness :
    lookupA (applyMatchResult [] "A" "B").1 "A" = some 1025 ∧
    lookupA (applyMatchResult [] "A" "B").1 "B" = some 975 := by
  have h := C4_rating_fixed_delta [] "A" "B" (by decide)
  constructor
  · rw [h.1]
    decide
  · rw [h.2.1]
    decide

/- ===== Claim C5 ===== -/

/-- The reachable finished match used in the C5 counterexample: A sank B's
only ship. -/
def c5m : Match := (shoot (gAB [shipC [0]] [shipC [5]]) [] "A" 5 0).2.1

/-- Non-participant C votes for a rematch. -/
def c5v1 : RematchReply × Match := request_rematch c5m "C" 0

/-- Participant A votes; the vote count reaches the participant count. -/
def c5v2 : RematchReply × Match := request_rematch c5v1.2 "A" 0

/-- Claim C5 counterexample: the rematch transition fires (the match returns
to waiting) after votes from C (not a participant) and A only, while
participant B never voted — refuting "only when every current participant
has voted". -/
theorem C5_counterexample :
    c5m.state = MState.finished ∧
    c5m.players = ["A", "B"] ∧
    Reachable c5m ∧
    c5v1.1 = RematchReply.pending ∧
    c5v2.2.state = MState.waiting ∧
    "B" ∉ addVote c5v1.2.rematchVotes "A" := by
  refine ⟨by decide, by decide, ?_, by decide, by decide, by decide⟩
  show Reachable (shoot (gAB [shipC [0]] [shipC [5]]) [] "A" 5 0).2.1
  refine Reachable.step _ _ ?_ (Step.fire _ [] "A" 5 0)
  show Reachable (place_ships (place_ships (join_match (create_match "A" "m1") "B")
    "A" [shipC [0]]) "B" [shipC [5]])
  exact Reachable.step _ _ (Reachable.step _ _ (Reachable.step _ _
    (Reachable.created "A" "m1") (Step.join _ "B")) (Step.place _ "A" _))
    (Step.place _ "B" _)

/-- Claim C5 amended: on a finished match, a rematch request fires exactly
when the recorded distinct votes (from any caller, participant or not) reach
the participant count; firing returns the match to waiting with the same id
and players, empty placements, shots, hits and votes, and a turn assigned to
the randomly selected participant. -/
theorem C5_rematch_amended (m : Match) (pid : PlayerId) (rnd : Nat)
    (hfin : m.state = MState.finished) :
    ((addVote m.rematchVotes pid).length < m.players.length →
      request_rematch m pid rnd =
        (RematchReply.pending, { m with rematchVotes := addVote m.rematchVotes pid })) ∧
    (m.players.length ≤ (addVote m.rematchVotes pid).length → rnd < m.players.length →
      (request_rematch m pid rnd).2.state = MState.waiting ∧
      (request_rematch m pid rnd).2.id = m.id ∧
      (request_rematch m pid rnd).2.players = m.players ∧
      (request_rematch m pid rnd).2.placements = [] ∧
      (request_rematch m pid rnd).2.shots = [] ∧
      (request_rematch m pid rnd).2.hits = [] ∧
      (request_rematch m pid rnd).2.rematchVotes = [] ∧
      ∃ p, (request_rematch m pid rnd).2.turn = some p ∧ p ∈ m.players) := by
  constructor
  · intro hlt
    unfold request_rematch
    rw [if_neg (by simp [hfin])]
    dsimp only
    rw [if_pos hlt]
  · intro hge hrnd
    unfold request_rematch
    rw [if_neg (by simp [hfin])]
    dsimp only
    rw [if_neg (not_lt.mpr hge)]
    refine ⟨rfl, rfl, rfl, rfl, rfl, rfl, rfl, ?_⟩
    dsimp only
    rw [List.get?_eq_get hrnd]
    exact ⟨m.players.get ⟨rnd, hrnd⟩, rfl, List.get_mem _ _ _⟩

/-- A finished match where B has already voted rematch. -/
def c5w : Match :=
  { id := "w"
    players := ["A", "B"]
    placements := []
    shots := []
    hits := []
    sunk := []
    turn := none
    state := MState.finished
    rematchVotes := ["B"]
    winner := some "A" }

/-- Witness for C5 amended: A's vote completes the count and the match
returns to waiting. -/
theorem C5_rematch_witness :
    (request_rematch c5w "A" 0).2.state = MState.waiting ∧
    (request_rematch c5w "A" 0).2.rematchVotes = [] := by
  have h := C5_rematch_amended c5w "A" 0 (by decide)
  have h2 := h.2 (by decide) (by decide)
  exact ⟨h2.1, h2.2.2.2.2.2.2.1⟩

/- ===== Claim C6 ===== -/

/-- Claim C6: an enqueue whose resulting queue holds at least two waiters
immediately dequeues the two earliest entries in FIFO order and yields a new
waiting match whose players are those two waiters with turn preset to the
first-in; an enqueue of an already-queued player adds no second entry. -/
theorem C6_find_match (q : List QEntry) (pid sid mId : String) :
    (∀ a b rest, enqueue q pid sid = a :: b :: rest →
      find_match q pid sid mId = (FindReply.matched (pairMatch mId a b), rest) ∧
      (pairMatch mId a b).players = [a.playerId, b.playerId] ∧
      (pairMatch mId a b).turn = some a.playerId ∧
      (pairMatch mId a b).state = MState.waiting) ∧
    ((q.any fun e => e.playerId == pid) = true → enqueue q pid sid = q) := by
  constructor
  · intro a b rest henq
    refine ⟨?_, rfl, rfl, rfl⟩
    unfold find_match
    dsimp only
    rw [henq]
  · intro hin
    unfold enqueue
    rw [if_pos hin]

/-- Witness for C6: B joins a queue holding A; the pair is dequeued into a
waiting match with turn preset to A. -/
theorem C6_find_match_witness :
    find_match [{ playerId := "A", socketId := "s1" }] "B" "s2" "m9" =
      (FindReply.matched (pairMatch "m9" { playerId := "A", socketId := "s1" }
        { playerId := "B", socketId := "s2" }), []) :=
  ((C6_find_match [{ playerId := "A", socketId := "s1" }] "B" "s2" "m9").1
    { playerId := "A", socketId := "s1" } { playerId := "B", socketId := "s2" } []
    (by decide)).1

/- ===== Claim C7 ===== -/

/-- The C7 counterexample match: A creates, B joins, then A and a third
party C submit placements, which starts the match with B never placing. -/
def c7m : Match := place_ships (place_ships gBase "A" [shipC [0]]) "C" [shipC [0]]

/-- Claim C7 counterexample: a reachable started match in which participant B
has no placement entry — refuting "state = started implies placements
contains an entry for each of the two entries of players". -/
theorem C7_counterexample :
    Reachable c7m ∧
    c7m.state = MState.started ∧
    c7m.players = ["A", "B"] ∧
    lookupA c7m.placements "B" = none := by
  refine ⟨?_, by decide, by decide, by decide⟩
  show Reachable (place_ships (place_ships (join_match (create_match "A" "m1") "B")
    "A" [shipC [0]]) "C" [shipC [0]])
  exact Reachable.step _ _ (Reachable.step _ _ (Reachable.step _ _
    (Reachable.created "A" "m1") (Step.join _ "B")) (Step.place _ "A" _))
    (Step.place _ "C" _)

/-- Claim C7 amended: in every reachable match state, state = started implies
that the player list is nonempty, that turn is one of the players, and that
placements holds at least two entries (possibly keyed by non-participants,
and not necessarily one per player). -/
theorem C7_started_invariant_amended (m : Match) (h : Reachable m)
    (hs : m.state = MState.started) :
    m.players ≠ [] ∧ (∃ p, m.turn = some p ∧ p ∈ m.players) ∧
    2 ≤ m.placements.length := by
  obtain ⟨h1, h2, h3⟩ := reachable_inv m h
  exact ⟨h1, (h2 hs).1, (h2 hs).2⟩

/-- Witness for C7 amended on a concrete reachable started match. -/
theorem C7_started_invariant_witness :
    2 ≤ (gAB [shipC [0]] [shipC [5]]).placements.length := by
  have hreach : Reachable (gAB [shipC [0]] [shipC [5]]) := by
    show Reachable (place_ships (place_ships (join_match (create_match "A" "m1") "B")
      "A" [shipC [0]]) "B" [shipC [5]])
    exact Reachable.step _ _ (Reachable.step _ _ (Reachable.step _ _
      (Reachable.created "A" "m1") (Step.join _ "B")) (Step.place _ "A" _))
      (Step.place _ "B" _)
  exact (C7_started_invariant_amended (gAB [shipC [0]] [shipC [5]]) hreach (by decide)).2.2

/- ===== Claim C8 ===== -/

/-- otherPlayer on a two-player list picks the one the caller is not. -/
theorem otherPlayer_pair (m : Match) (pid p1 p2 : PlayerId)
    (hp : m.players = [p1, p2]) (hne : p1 ≠ p2) (hmem : pid = p1 ∨ pid = p2) :
    otherPlayer m pid = some (if pid = p1 then p2 else p1) := by
  rcases hmem with rfl | rfl
  · have hb : (p2 != pid) = true := by
      simpa [bne_iff_ne] using Ne.symm hne
    simp [otherPlayer, hp, List.find?, hb]
  · have hb : (p1 != pid) = true := by
      simpa [bne_iff_ne] using hne
    rw [if_neg (Ne.symm hne)]
    simp [otherPlayer, hp, List.find?, hb]

/-- Claim C8: leaving a started two-player match finishes it with the
remaining participant as winner and applies the rating update as a win for
the remaining player; leaving a match still waiting aborts it with no winner
and no rating effect. -/
theorem C8_leave_forfeit (m : Match) (r : Ratings) (pid p1 p2 : PlayerId)
    (hp : m.players = [p1, p2]) (hne : p1 ≠ p2) (hp1 : p1 ≠ "") (hp2 : p2 ≠ "")
    (hmem : pid = p1 ∨ pid = p2) :
    (m.state = MState.started →
      (leave m r pid).1.state = MState.finished ∧
      (leave m r pid).1.winner = some (if pid = p1 then p2 else p1) ∧
      (leave m r pid).2 = (applyMatchResult r (if pid = p1 then p2 else p1) pid).1) ∧
    (m.state = MState.waiting → m.winner = none →
      leave m r pid = ({ m with state := MState.aborted }, r) ∧
      (leave m r pid).1.winner = none) := by
  have hopp := otherPlayer_pair m pid p1 p2 hp hne hmem
  constructor
  · intro hst
    have hoppne : (if pid = p1 then p2 else p1) ≠ "" := by
      split
      · exact hp2
      · exact hp1
    have hpidne : pid ≠ "" := by
      rcases hmem with rfl | rfl
      · exact hp1
      · exact hp2
    have hloser : m.players.find? (fun p => p != (if pid = p1 then p2 else p1))
        = some pid := by
      rcases hmem with rfl | rfl
      · rw [if_pos rfl]
        have hb : (pid != p2) = true := by
          simpa [bne_iff_ne] using hne
        simp [hp, List.find?, hb]
      · rw [if_neg (Ne.symm hne)]
        have hb : (pid != p1) = true := by
          simpa [bne_iff_ne] using Ne.symm hne
        simp [hp, List.find?, hb]
    have htruthy : truthyStr (some (if pid = p1 then p2 else p1))
        = some (if pid = p1 then p2 else p1) := by
      simp only [truthyStr]
      rw [if_neg hoppne]
    unfold leave
    rw [if_pos hst, hopp]
    unfold finishMatch
    rw [hst]
    simp only [reduceCtorEq, or_self, if_false]
    rw [htruthy]
    dsimp only
    rw [if_pos (by simp [hp])]
    rw [hloser]
    dsimp only
    rw [if_pos hpidne]
    exact ⟨rfl, rfl, rfl⟩
  · intro hw hwin
    have hL : leave m r pid = ({ m with state := MState.aborted }, r) := by
      unfold leave
      rw [if_neg (by simp [hw])]
    refine ⟨hL, ?_⟩
    rw [hL]
    exact hwin

/-- Witness for C8: B leaves the concrete started match; A is declared
winner. -/
theorem C8_leave_forfeit_witness :
    (leave (gAB [shipC [0]] [shipC [5]]) [] "B").1.winner = some "A" := by
  have h := C8_leave_forfeit (gAB [shipC [0]] [shipC [5]]) [] "B" "A" "B"
    (by decide) (by decide) (by decide) (by decide) (Or.inr rfl)
  have h2 := (h.1 (by decide)).2.1
  simpa using h2

/- ===== Claim C9 ===== -/

/-- The C9 counterexample match: B holds a one-cell ship [0] and a two-cell
ship [1,2]. -/
def c9m : Match := gAB [shipC [0]] [shipC [0], shipC [1, 2]]

/-- A's first shot hits cell 1 of the two-cell ship (turn stays with A). -/
def c9s1 : ShootReply × Match × Ratings := shoot c9m [] "A" 1 0

/-- A's second shot sinks the one-cell ship [0]. -/
def c9s2 : ShootReply × Match × Ratings := shoot c9s1.2.1 c9s1.2.2 "A" 0 0

/-- The sunkShip descriptor returned by the second C9 shot. -/
def c9ss : SunkShip :=
  { cells := [0]
    size := some 1
    orientation := some "h"
    skinId := none
    owner := "B" }

/-- The reply payload of the second C9 shot. -/
def c9pl : ShotPayload :=
  { matchId := "m1"
    shooter := "A"
    x := 0
    y := 0
    result := ShotResult.sunk
    newTurn := some "A"
    finished := false
    winner := none
    sunkShip := some c9ss }

/-- Claim C9 counterexample: after the fire that returns sunk with ship [0],
the opponent hit-set also contains cell 1 — a cell outside the returned ship
— because the hit-set accumulates hits on all of the opponent's ships. -/
theorem C9_counterexample :
    Reachable c9s1.2.1 ∧
    c9s2.1 = ShootReply.ok c9pl ∧
    1 ∈ getSet c9s2.2.1.hits "B" ∧
    1 ∉ c9ss.cells := by
  refine ⟨?_, by decide, by decide, by decide⟩
  show Reachable (shoot c9m [] "A" 1 0).2.1
  refine Reachable.step _ _ ?_ (Step.fire _ [] "A" 1 0)
  show Reachable (place_ships (place_ships (join_match (create_match "A" "m1") "B")
    "A" [shipC [0]]) "B" [shipC [0], shipC [1, 2]])
  exact Reachable.step _ _ (Reachable.step _ _ (Reachable.step _ _
    (Reachable.created "A" "m1") (Step.join _ "B")) (Step.place _ "A" _))
    (Step.place _ "B" _)

/-- Claim C9 amended: after any accepted fire that returns sunk, every cell
of the returned sunkShip is contained in the opponent's hit-set, and the
sunkShip's cell list is exactly the cell list of one of the opponent's
placed ships (the descriptor itself includes no cell outside that ship);
the hit-set may additionally contain cells of other, partially hit ships. -/
theorem C9_sunk_cells_amended (m : Match) (r : Ratings) (pid oppId : PlayerId)
    (x y : Nat) (pl : ShotPayload) (m2 : Match) (r2 : Ratings)
    (h : shoot m r pid x y = (ShootReply.ok pl, m2, r2))
    (hopp : otherPlayer m pid = some oppId)
    (hsunk : pl.result = ShotResult.sunk) :
    ∃ ss, pl.sunkShip = some ss ∧
      (∀ c ∈ ss.cells, c ∈ getSet m2.hits oppId) ∧
      ∃ sh ∈ (lookupA m.placements oppId).getD [], sh.cells.getD [] = ss.cells := by
  obtain ⟨hstate, hturn, hnm, oppId2, hopp2, hres⟩ := shoot_ok_elim m r pid x y pl m2 r2 h
  rw [hopp] at hopp2
  have hoppeq : oppId2 = oppId := by
    simpa using hopp2.symm
  rw [hoppeq] at hres
  have hcons := scanShips_sunk_isSome oppId (cellIndex x y)
    (getSet (recordShot m pid (cellIndex x y)).hits oppId)
    ((lookupA (recordShot m pid (cellIndex x y)).placements oppId).getD [])
  rcases hscan : scanShips oppId (cellIndex x y)
      (getSet (recordShot m pid (cellIndex x y)).hits oppId)
      ((lookupA (recordShot m pid (cellIndex x y)).placements oppId).getD [])
    with ⟨hitB, sunkB, ss, hits1⟩
  rw [hscan] at hcons
  dsimp only at hcons
  obtain ⟨hcA, hcB⟩ := hcons
  obtain ⟨hresult, hfin, hwin, hnt, hss, hturn2, hstate2, hplayers2, hplace2,
      hshots2, hhits2, hshoot, hx, hy, hid⟩ :=
    resolveShot_fields (recordShot m pid (cellIndex x y)) r pid oppId x y (cellIndex x y)
      hitB sunkB ss hits1 pl m2 r2 hscan hres (by exact hstate)
  have hsb : sunkB = true := by
    cases hsb2 : sunkB with
    | true => rfl
    | false =>
      rw [hsb2] at hresult
      simp only [Bool.false_eq_true, if_false] at hresult
      rw [hresult] at hsunk
      split at hsunk <;> simp at hsunk
  have hhb : hitB = true := hcB hsb
  have hssSome : ss.isSome := by
    rw [← hcA, hsb]
  cases hssv : ss with
  | none =>
    rw [hssv] at hssSome
    simp at hssSome
  | some s =>
    rw [hssv] at hscan
    rw [hsb, hhb] at hscan
    obtain ⟨hcells, hship⟩ := scanShips_sunk_cells oppId (cellIndex x y)
      (getSet (recordShot m pid (cellIndex x y)).hits oppId)
      ((lookupA (recordShot m pid (cellIndex x y)).placements oppId).getD [])
      true s hits1 hscan
    refine ⟨s, by rw [hss, hssv], ?_, ?_⟩
    · intro c hc
      rw [hhb] at hhits2
      simp only [if_true] at hhits2
      rw [hhits2, getSet_setA, if_pos rfl]
      exact hcells c hc
    · have hplacem : (lookupA (recordShot m pid (cellIndex x y)).placements oppId)
          = lookupA m.placements oppId := by
        simp [recordShot]
      rw [hplacem] at hship
      exact hship

/-- Witness for C9 amended: the concrete sinking shot from the C2 witness
yields a sunkShip whose only cell 5 is indeed in B's hit-set. -/
theorem C9_sunk_cells_witness :
    5 ∈ getSet (shoot (gAB [shipC [0]] [shipC [5]]) [] "A" 5 0).2.1.hits "B" := by
  have h := C9_sunk_cells_amended (gAB [shipC [0]] [shipC [5]]) [] "A" "B" 5 0
    c2wpl
    ((shoot (gAB [shipC [0]] [shipC [5]]) [] "A" 5 0).2.1)
    ((shoot (gAB [shipC [0]] [shipC [5]]) [] "A" 5 0).2.2)
    (by decide) (by decide) (by decide)
  obtain ⟨ss, hss, hc, -⟩ := h
  have hsseq : ss = c2wss := by
    have h2 : c2wpl.sunkShip = some ss := hss
    simpa [c2wpl] using h2.symm
  exact hc 5 (by rw [hsseq]; decide)

/- ===== Claim C10 ===== -/

/-- The started match for C10: B's ship occupies indices 15 and 16. -/
def c10m : Match := gAB [shipC [0]] [shipC [15, 16]]

/-- The reply payload of the off-board C10 shot. -/
def c10pl : ShotPayload :=
  { matchId := "m1"
    shooter := "A"
    x := 15
    y := 0
    result := ShotResult.hit
    newTurn := some "A"
    finished := false
    winner := none
    sunkShip := none }

/-- Claim C10: a fire at (15,0), outside the 10×10 board, is not rejected:
its linear index 15 collides with on-board cell (5,1), the shot is recorded
at index 15 and evaluated against B's ships as a hit on that cell, and a
later on-board shot at (5,1) is rejected as already_shot. -/
theorem C10_no_bounds_check :
    cellIndex 15 0 = cellIndex 5 1 ∧
    c10m.state = MState.started ∧
    (shoot c10m [] "A" 15 0).1 = ShootReply.ok c10pl ∧
    15 ∈ getSet (shoot c10m [] "A" 15 0).2.1.shots "A" ∧
    15 ∈ getSet (shoot c10m [] "A" 15 0).2.1.hits "B" ∧
    (shoot (shoot c10m [] "A" 15 0).2.1 (shoot c10m [] "A" 15 0).2.2 "A" 5 1).1 =
      ShootReply.err_already_shot "A" 5 1 15 := by
  decide

end SeaBattle
